import Mathlib

/-!
Shallow embedding of the `cron-runner` repository's trigger-and-track engine:

* `Retry`    — package `retry` (src/unnamed/part_003): retry configuration,
  retryability classification, exponential backoff with a server-directed
  `Retry-After` override, and the retrying request loop `Do`.
* `Pipeline` — package `pipeline` (src/internal/pipeline/client.go): the job
  trigger client: `startJob`, the `pollJobCompletion` loop, `fetchJobStatus`,
  and `TriggerAll`.
* `Health`   — package `health` (src/unnamed/part_001): the readiness /
  last-run health state and its HTTP handlers, driven by the `serverMode`
  call sites in src/main.go.

Modelling conventions, used throughout:

* Go `time.Duration` is an `int64` count of nanoseconds; backoff arithmetic in
  the source is performed in `float64` and converted back.  We model durations
  and the backoff factor as `ℚ` (idealising `float64` arithmetic as exact
  rational arithmetic and eliding the final integer truncation, which the
  claims do not touch).  `second = 10^9` in these units, as in Go.
* Network effects are abstracted into environments: a function giving, per
  attempt (or per poll cycle), the outcome the HTTP client would produce, and
  Booleans saying whether the cancellation context was observed done at each
  checkpoint and whether the wall-clock deadline had passed.  The loops
  themselves are transcribed statement-for-statement from the source.
* `json.Unmarshal` on a response body is modelled by an inductive body value
  that is either unreadable (`io.ReadAll` failure), malformed JSON, or a
  successfully decoded value of the target shape.
* Go's multiple-return `(value, err)` idioms become structures with an
  `Option` error field; the distinct `error` values the source constructs are
  the constructors of `GoErr`.
-/

namespace Retry

/-- Errors the modelled code can produce (each constructor corresponds to one
`fmt.Errorf`/`ctx.Err()` site in the source). -/
inductive GoErr where
  /-- `ctx.Err()`: the cancellation context was done. -/
  | ctxErr
  /-- a transport-level error from `client.Do`. -/
  | netErr
  /-- `startJob`: "no response received". -/
  | noResponse
  /-- `startJob`: "failed to read response" (`io.ReadAll` failed). -/
  | readErr
  /-- `startJob`: "unexpected status %d". -/
  | badStatus
  /-- `startJob`: "failed to parse response" (`json.Unmarshal` failed). -/
  | parseErr
  /-- `startJob`: "no job ID in response". -/
  | noJobID
  /-- `pollJobCompletion`: "polling timeout after %v". -/
  | pollTimeout
  deriving DecidableEq, Repr

/-- Body of a response to `POST /v1/internal/pipelines/all`, as seen by
`startJob`: reading can fail, decoding as `jobCreatedResponse` can fail, or it
decodes and carries `Data.JobID` (possibly the empty string, since
`json.Unmarshal` fills absent fields with zero values). -/
inductive StartBody where
  /-- `io.ReadAll(result.Response.Body)` returns an error. -/
  | readErr
  /-- `json.Unmarshal` into `jobCreatedResponse` returns an error. -/
  | malformed
  /-- the body decodes; `jobID` is the decoded `Data.JobID` field. -/
  | decoded (jobID : String)
  deriving DecidableEq, Repr

/-- An `*http.Response` as consumed by the retry package and `startJob`:
its status code, the `Retry-After` header (Go's `Header.Get` returns `""`
when the header is absent), and its body. -/
structure Resp where
  statusCode : Int
  /-- `resp.Header.Get ("Retry-After")`; `""` when the header is absent. -/
  retryAfter : String
  body : StartBody
  deriving DecidableEq, Repr

/-- `retry.Config` (src/unnamed/part_003 lines 14-19).  `MaxRetries` is a Go
`int`; the spec constrains it to be non-negative, so we carry it as `Nat`.
Durations are `ℚ` nanosecond counts, the factor a `ℚ` (see file header). -/
structure Config where
  maxRetries : Nat
  initialBackoff : ℚ
  maxBackoff : ℚ
  backoffFactor : ℚ

/-- One second, in the nanosecond duration units (`time.Second`). -/
def second : ℚ := 1000000000

/-- `retry.IsRetryable` (src/unnamed/part_003 lines 30-55).  The Go call sites
pass either `(nil, err)` with `err ≠ nil` or `(resp, nil)`; `isErr` says
whether the `err` argument is non-nil. -/
def IsRetryable (resp : Option Resp) (isErr : Bool) : Bool :=
  if isErr then true
  else match resp with
    | none => true
    | some r =>
      if r.statusCode = 429 then true
      else if r.statusCode = 503 then true
      else if r.statusCode = 504 then true
      else if r.statusCode = 502 then true
      else if r.statusCode ≥ 500 then true
      else false

/-- Go `strconv.Atoi`: an optional sign followed by at least one ASCII digit,
rejecting anything else, and rejecting values outside the `int64` range
(Go returns `ErrRange` there). -/
def atoi (s : String) : Option Int :=
  match s.data with
  | [] => none
  | c :: rest =>
    let signed : Bool × List Char :=
      if c = '-' then (true, rest)
      else if c = '+' then (false, rest)
      else (false, c :: rest)
    match signed with
    | (neg, digits) =>
      if digits = [] then none
      else if digits.all (fun d => d.isDigit) then
        let n : Nat := digits.foldl (fun acc d => acc * 10 + (d.toNat - 48)) 0
        let v : Int := if neg then -(n : Int) else (n : Int)
        if -(2 ^ 63) ≤ v ∧ v < 2 ^ 63 then some v else none
      else none

/-- `retry.CalculateBackoff` (src/unnamed/part_003 lines 58-78).

`dateUntil` abstracts the impure branch
`time.Parse(time.RFC1123, retryAfter)` followed by `time.Until(t)`: it
returns `some d` when the header parses as an RFC1123 date whose distance
from the wall clock at call time is `d`, and `none` when the date parse
fails (in which case the source falls through to the exponential formula). -/
def CalculateBackoff (dateUntil : String → Option ℚ) (cfg : Config)
    (attempt : Nat) (resp : Option Resp) : ℚ :=
  let fromHeader : Option ℚ :=
    match resp with
    | some r =>
      if r.statusCode = 429 then
        if r.retryAfter ≠ "" then
          match atoi r.retryAfter with
          | some seconds => some ((seconds : ℚ) * second)
          | none =>
            match dateUntil r.retryAfter with
            | some d => some d
            | none => none
        else none
      else none
    | none => none
  match fromHeader with
  | some d => d
  | none =>
    let backoff : ℚ := cfg.initialBackoff * cfg.backoffFactor ^ attempt
    if backoff > cfg.maxBackoff then cfg.maxBackoff else backoff

/-- What `client.Do(reqCopy)` returns on one attempt: either a transport-level
error (`resp = nil, err ≠ nil`) or a response (`err = nil`). -/
inductive AttemptOut where
  | failure
  | response (r : Resp)
  deriving DecidableEq, Repr

/-- The environment a run of `retry.Do` executes against: per attempt index
`k` (0-based), the outcome `client.Do` produces, and whether `ctx.Done()` is
already fired when the backoff wait preceding attempt `k` runs its `select`
(consulted only for `k ≥ 1`; attempt 0 has no preceding wait). -/
structure DoEnv where
  outcome : Nat → AttemptOut
  cancelledBefore : Nat → Bool

/-- `retry.Result` (src/unnamed/part_003 lines 22-27), minus the wall-clock
`TotalTime` field, plus the ghost field `requestsMade` counting how many
times the loop actually called `client.Do` (instrumentation for the
"at most maxRetries+1 attempts" bound; not a field of the Go struct). -/
structure DoResult where
  response : Option Resp
  attempts : Nat
  finalError : Option GoErr
  requestsMade : Nat
  deriving DecidableEq, Repr

/-- The body of `retry.Do`'s `for` loop (src/unnamed/part_003 lines 86-155),
transcribed with explicit fuel: `fuel` is the number of loop iterations the
`attempt ≤ cfg.MaxRetries` guard still allows (callers pass
`fuel = cfg.maxRetries + 1 - attempt`), and `lastResp`/`lastErr` are the
`lastResp`/`lastErr` locals.  `fuel = 0` is the fall-through return after the
loop (lines 150-155). -/
def doAux (cfg : Config) (env : DoEnv) :
    Nat → Nat → Option Resp → Bool → DoResult
  | 0, _, lastResp, lastErr =>
    ⟨lastResp, cfg.maxRetries + 1, if lastErr then some .netErr else none, 0⟩
  | fuel + 1, attempt, lastResp, lastErr =>
    if 0 < attempt ∧ env.cancelledBefore attempt = true then
      ⟨none, attempt, some .ctxErr, 0⟩
    else
      match env.outcome attempt with
      | .failure =>
        if IsRetryable none true ∧ attempt < cfg.maxRetries then
          let r := doAux cfg env fuel (attempt + 1) none true
          { r with requestsMade := r.requestsMade + 1 }
        else
          ⟨none, cfg.maxRetries + 1, some .netErr, 1⟩
      | .response resp =>
        if IsRetryable (some resp) false = false then
          ⟨some resp, attempt + 1, none, 1⟩
        else
          let r := doAux cfg env fuel (attempt + 1) (some resp) false
          { r with requestsMade := r.requestsMade + 1 }

/-- `retry.Do` (src/unnamed/part_003 lines 81-156): run the loop from
attempt 0 with `lastResp = nil`, `lastErr = nil`. -/
def Do (cfg : Config) (env : DoEnv) : DoResult :=
  doAux cfg env (cfg.maxRetries + 1) 0 none false

lemma doAux_zero (cfg : Config) (env : DoEnv) (lastResp : Option Resp)
    (lastErr : Bool) (attempt : Nat) :
    doAux cfg env 0 attempt lastResp lastErr =
      ⟨lastResp, cfg.maxRetries + 1, if lastErr then some .netErr else none, 0⟩ :=
  rfl

lemma doAux_succ (cfg : Config) (env : DoEnv) (fuel attempt : Nat)
    (lastResp : Option Resp) (lastErr : Bool) :
    doAux cfg env (fuel + 1) attempt lastResp lastErr =
      if 0 < attempt ∧ env.cancelledBefore attempt = true then
        ⟨none, attempt, some .ctxErr, 0⟩
      else
        match env.outcome attempt with
        | .failure =>
          if IsRetryable none true ∧ attempt < cfg.maxRetries then
            let r := doAux cfg env fuel (attempt + 1) none true
            { r with requestsMade := r.requestsMade + 1 }
          else
            ⟨none, cfg.maxRetries + 1, some .netErr, 1⟩
        | .response resp =>
          if IsRetryable (some resp) false = false then
            ⟨some resp, attempt + 1, none, 1⟩
          else
            let r := doAux cfg env fuel (attempt + 1) (some resp) false
            { r with requestsMade := r.requestsMade + 1 } :=
  rfl

/-- Every loop iteration issues at most one request, so a run with `fuel`
iterations of budget issues at most `fuel` requests. -/
lemma doAux_requestsMade_le (cfg : Config) (env : DoEnv) :
    ∀ fuel attempt lastResp lastErr,
      (doAux cfg env fuel attempt lastResp lastErr).requestsMade ≤ fuel := by
  intro fuel
  induction fuel with
  | zero => intro attempt lastResp lastErr; simp [doAux_zero]
  | succ f ih =>
    intro attempt lastResp lastErr
    rw [doAux_succ]
    by_cases hcanc : 0 < attempt ∧ env.cancelledBefore attempt = true
    · simp [hcanc]
    · simp only [if_neg hcanc]
      cases houtcome : env.outcome attempt with
      | failure =>
        by_cases hretry : IsRetryable none true ∧ attempt < cfg.maxRetries
        · simpa [hretry] using Nat.succ_le_succ (ih (attempt + 1) none true)
        · simp [hretry]
      | response resp =>
        by_cases hterm : IsRetryable (some resp) false = false
        · simp [hterm]
        · simpa [hterm] using
            Nat.succ_le_succ (ih (attempt + 1) (some resp) false)

end Retry

namespace Pipeline

/-- `pipeline.PollConfig` (client.go lines 28-32); durations in nanoseconds
as `ℚ` (see file header). -/
structure PollConfig where
  initialInterval : ℚ
  maxInterval : ℚ
  maxWaitTime : ℚ

/-- `pipeline.PipelineResult` (client.go lines 84-91). -/
structure PipelineResult where
  pipelineName : String
  status : String
  message : String
  durationSeconds : ℚ
  recordsProcessed : Nat
  error : String
  deriving DecidableEq, Repr

/-- `pipeline.JobStatus` (client.go lines 68-81).  The `results` JSON map is
modelled as an association list; the timestamp strings are carried verbatim. -/
structure JobStatus where
  jobID : String
  status : String
  createdAt : String
  startedAt : String
  completedAt : String
  durationSeconds : ℚ
  pipelinesTotal : Nat
  pipelinesCompleted : Nat
  pipelinesFailed : Nat
  currentPipeline : String
  results : List (String × PipelineResult)
  error : String
  deriving DecidableEq, Repr

/-- Body of a response to `GET /v1/internal/pipelines/jobs/{id}`: reading can
fail, decoding as `jobStatusResponse` can fail, or it decodes to a
`JobStatus` (the `Data` field). -/
inductive StatusBody where
  | readErr
  | malformed
  | decoded (s : JobStatus)
  deriving DecidableEq, Repr

/-- What one run of `fetchJobStatus`'s inner `c.httpClient.Do(req)` produces:
a transport error, or a response with a status code and body. -/
inductive FetchHttpOut where
  | netErr
  | response (statusCode : Int) (body : StatusBody)
  deriving DecidableEq, Repr

/-- `pipeline.fetchJobStatus` (client.go lines 282-315), with the HTTP call's
outcome supplied as `out`.  Every `fmt.Errorf` return is collapsed to `none`
(the poll loop only tests the error for non-nilness). -/
def fetchJobStatus (out : FetchHttpOut) : Option JobStatus :=
  match out with
  | .netErr => none
  | .response code body =>
    if body = .readErr then none
    else if code = 404 then none
    else if code < 200 ∨ code ≥ 300 then none
    else
      match body with
      | .decoded s => some s
      | _ => none

/-- The environment one run of `pollJobCompletion` executes against, indexed
by poll cycle `n` (0-based): whether `time.Now().After(deadline)` holds at
cycle `n`'s deadline check, whether `ctx.Done()` is already fired at the
pre-fetch `select`, the HTTP outcome of the cycle's status fetch, and
whether `ctx.Done()` fires before the `time.After(interval)` sleep ends. -/
structure PollEnv where
  deadlineExceeded : Nat → Bool
  cancelledAtCheck : Nat → Bool
  http : Nat → FetchHttpOut
  cancelledDuringWait : Nat → Bool

/-- How a run of the poll loop ends; `outOfFuel` is the model artifact for a
run whose fuel budget ends while the source loop would keep iterating. -/
inductive PollResult where
  | snapshot (s : JobStatus)
  | timeout
  | cancelled
  | outOfFuel
  deriving DecidableEq, Repr

/-- The body of `pollJobCompletion`'s `for` loop (client.go lines 231-278),
transcribed with explicit fuel.  `n` is the cycle index, `interval` the
current poll interval.  Besides the loop's own result, the model returns the
ghost list of `JobStatus` snapshots successfully fetched and parsed during
the run, in order (instrumentation; the source only logs them). -/
def pollAux (pollCfg : PollConfig) (env : PollEnv) :
    Nat → Nat → ℚ → PollResult × List JobStatus
  | 0, _, _ => (.outOfFuel, [])
  | fuel + 1, n, interval =>
    if env.deadlineExceeded n then (.timeout, [])
    else if env.cancelledAtCheck n then (.cancelled, [])
    else
      let grown := interval * (3 / 2 : ℚ)
      let nextInterval :=
        if grown > pollCfg.maxInterval then pollCfg.maxInterval else grown
      match fetchJobStatus (env.http n) with
      | some s =>
        if s.status = "completed" ∨ s.status = "failed" then (.snapshot s, [s])
        else if env.cancelledDuringWait n then (.cancelled, [s])
        else
          let r := pollAux pollCfg env fuel (n + 1) nextInterval
          (r.1, s :: r.2)
      | none =>
        if env.cancelledDuringWait n then (.cancelled, [])
        else pollAux pollCfg env fuel (n + 1) nextInterval

/-- `pipeline.pollJobCompletion` (client.go lines 225-279): run the loop from
cycle 0 at `initialInterval` and translate the loop's exit into the Go
`(*JobStatus, error)` pair; `none` when the fuel ran out (no source
counterpart — the source loop would still be iterating). -/
def pollJobCompletion (pollCfg : PollConfig) (env : PollEnv) (fuel : Nat) :
    Option (Option JobStatus × Option Retry.GoErr) :=
  match (pollAux pollCfg env fuel 0 pollCfg.initialInterval).1 with
  | .snapshot s => some (some s, none)
  | .timeout => some (none, some .pollTimeout)
  | .cancelled => some (none, some .ctxErr)
  | .outOfFuel => none

/-- The `(string, int, error)` triple returned by `startJob`; `jobID` is `""`
on every error path (Go's zero value). -/
structure StartRes where
  jobID : String
  attempts : Nat
  err : Option Retry.GoErr
  deriving DecidableEq, Repr

/-- `pipeline.startJob` (client.go lines 177-222), with the `retry.Do` result
supplied as `r`.  The `fmt.Errorf("failed to start job: %w", ...)` wrapper is
identified with the wrapped error's kind. -/
def startJob (r : Retry.DoResult) : StartRes :=
  match r.finalError with
  | some e => ⟨"", r.attempts, some e⟩
  | none =>
    match r.response with
    | none => ⟨"", r.attempts, some .noResponse⟩
    | some resp =>
      if resp.body = .readErr then ⟨"", r.attempts, some .readErr⟩
      else if resp.statusCode < 200 ∨ resp.statusCode ≥ 300 then
        ⟨"", r.attempts, some .badStatus⟩
      else
        match resp.body with
        | .decoded jid =>
          if jid = "" then ⟨"", r.attempts, some .noJobID⟩
          else ⟨jid, r.attempts, none⟩
        | _ => ⟨"", r.attempts, some .parseErr⟩

/-- `pipeline.TriggerResult` (client.go lines 56-65), minus the wall-clock
`Duration` field and the `StatusCode`/`ResponseBody` fields (which
`TriggerAll` in client.go never assigns). -/
structure TriggerResult where
  success : Bool
  jobID : String
  attempts : Nat
  error : Option Retry.GoErr
  jobDetails : Option JobStatus
  deriving DecidableEq, Repr

/-- `pipeline.TriggerAll` (client.go lines 114-174), with the start request's
`retry.Do` result supplied as `doRes` and the polling environment as `env`;
`none` when the poll loop's fuel ran out. -/
def TriggerAll (doRes : Retry.DoResult) (pollCfg : PollConfig) (env : PollEnv)
    (fuel : Nat) : Option TriggerResult :=
  let s := startJob doRes
  match s.err with
  | some e => some ⟨false, "", s.attempts, some e, none⟩
  | none =>
    match pollJobCompletion pollCfg env fuel with
    | none => none
    | some (js, some e) => some ⟨false, s.jobID, s.attempts, some e, js⟩
    | some (js, none) =>
      let success :=
        match js with
        | some st => decide (st.status = "completed" ∧ st.pipelinesFailed = 0)
        | none => false
      some ⟨success, s.jobID, s.attempts, none, js⟩

end Pipeline

namespace Health

/-- `health.PipelineRunStatus` (src/unnamed/part_001 lines 24-30), minus the
wall-clock `Timestamp`/`Duration` fields; `error` is `""` when the recorded
`err` was nil (the Go zero value, `omitempty` in JSON). -/
structure PipelineRunStatus where
  success : Bool
  attempts : Nat
  error : String
  deriving DecidableEq, Repr

/-- `health.State` (src/unnamed/part_001 lines 33-37); the `sync.RWMutex`
serialises accessors, so the model is the plain record they guard. -/
structure State where
  ready : Bool
  lastPipelineRun : Option PipelineRunStatus
  deriving DecidableEq, Repr

/-- `health.NewState` (lines 40-44): `ready` starts true. -/
def NewState : State := ⟨true, none⟩

/-- `health.State.RecordPipelineRun` (lines 47-63): replaces
`lastPipelineRun` wholesale; `errMsg` is `err.Error()` for a non-nil `err`
and `""` otherwise. -/
def RecordPipelineRun (s : State) (success : Bool) (attempts : Nat)
    (errMsg : String) : State :=
  ⟨s.ready, some ⟨success, attempts, errMsg⟩⟩

/-- `health.State.SetReady` (lines 66-70). -/
def SetReady (s : State) (ready : Bool) : State :=
  ⟨ready, s.lastPipelineRun⟩

/-- `health.State.HandleReady` (lines 96-117): the HTTP status code and the
`status` field of the JSON body it writes. -/
def HandleReady (s : State) : Nat × String :=
  if s.ready then (200, "ready") else (503, "not_ready")

/-- The operations `serverMode` (src/main.go) ever performs on the health
state: the `/trigger` handler's `RecordPipelineRun` (main.go line 165) and
the shutdown path's `SetReady(false)` (main.go line 217).  No call site
passes `true` to `SetReady`. -/
inductive Event where
  | trigger (success : Bool) (attempts : Nat) (errMsg : String)
  | shutdown
  deriving DecidableEq, Repr

/-- One program operation applied to the health state. -/
def step (s : State) : Event → State
  | .trigger success attempts errMsg => RecordPipelineRun s success attempts errMsg
  | .shutdown => SetReady s false

/-- The health state after the program has performed `events`, starting from
`NewState` as `serverMode` does. -/
def run (events : List Event) : State :=
  events.foldl step NewState

end Health

/-! Concrete fixtures used by witnesses and counterexamples. -/

namespace Fixtures

/-- A 503 Service Unavailable response. -/
def resp503 : Retry.Resp := ⟨503, "", .malformed⟩

/-- A 200 response whose body decodes with `job_id = "job-1"`. -/
def resp200ok : Retry.Resp := ⟨200, "", .decoded "job-1"⟩

/-- Executor environment producing the response sequence `[503, 503, 200, 200, …]`
with no cancellation. -/
def envTwo503 : Retry.DoEnv :=
  ⟨fun k => if k < 2 then .response resp503 else .response resp200ok,
   fun _ => false⟩

/-- Executor environment producing a 503 on every attempt, no cancellation. -/
def envAll503 : Retry.DoEnv :=
  ⟨fun _ => .response resp503, fun _ => false⟩

/-- A poll configuration: 1s initial interval, 10s cap, 100s deadline
(in `second` units for readability; the loop model never divides by these). -/
def pcfg : Pipeline.PollConfig :=
  ⟨Retry.second, 10 * Retry.second, 100 * Retry.second⟩

/-- A running, non-terminal job snapshot. -/
def stRunning : Pipeline.JobStatus :=
  ⟨"j1", "running", "2024-01-01T00:00:00Z", "", "", 0, 3, 1, 0, "p2", [], ""⟩

/-- A terminal snapshot: completed with zero failed pipelines. -/
def stCompleted0 : Pipeline.JobStatus :=
  ⟨"j1", "completed", "2024-01-01T00:00:00Z", "", "", 12, 3, 3, 0, "", [], ""⟩

/-- A terminal snapshot: status completed but two pipelines failed. -/
def stCompleted2 : Pipeline.JobStatus :=
  ⟨"j1", "completed", "2024-01-01T00:00:00Z", "", "", 12, 3, 1, 2, "", [], "2 failed"⟩

/-- A successful `retry.Do` result for the start request: one attempt, 200,
body decoding to `job_id = "j1"`. -/
def doResOk : Retry.DoResult := ⟨some ⟨200, "", .decoded "j1"⟩, 1, none, 1⟩

/-- A `retry.Do` result whose 2xx body decodes but carries an empty `job_id`. -/
def doResNoID : Retry.DoResult := ⟨some ⟨200, "", .decoded ""⟩, 2, none, 2⟩

/-- Poll environment whose first fetch already yields `stCompleted2`. -/
def envCompleted2 : Pipeline.PollEnv :=
  ⟨fun _ => false, fun _ => false,
   fun _ => .response 200 (.decoded stCompleted2), fun _ => false⟩

/-- Poll environment: cycle 0 fetches a running snapshot, and from cycle 1 on
the deadline has passed.  No cancellation anywhere. -/
def envRunningThenDeadline : Pipeline.PollEnv :=
  ⟨fun n => decide (1 ≤ n), fun _ => false,
   fun _ => .response 200 (.decoded stRunning), fun _ => false⟩

/-- Poll environment where, at cycle 0, the deadline has passed and the
cancellation signal has also already been triggered. -/
def envDeadlineAndCancel : Pipeline.PollEnv :=
  ⟨fun _ => true, fun _ => true, fun _ => .netErr, fun _ => false⟩

/-- Poll environment: cancellation is pending at every pre-fetch check, the
deadline never passes. -/
def envCancelAtCheck : Pipeline.PollEnv :=
  ⟨fun _ => false, fun _ => true, fun _ => .netErr, fun _ => false⟩

/-- Poll environment: every fetch fails with a transport error, nothing else
ever fires. -/
def envFetchAlwaysFails : Pipeline.PollEnv :=
  ⟨fun _ => false, fun _ => false, fun _ => .netErr, fun _ => false⟩

/-- Executor environment: every attempt answers 503 and the cancellation
signal is already fired during every backoff wait. -/
def envCancelledWait : Retry.DoEnv :=
  ⟨fun _ => .response resp503, fun _ => true⟩

end Fixtures

/-! Theorems. -/

/-- `atoi` rejects the empty string, so a successful parse implies the
`retryAfter != ""` guard in `CalculateBackoff` passes. -/
lemma atoi_empty : Retry.atoi "" = none := rfl

/-- With no usable rate-limit hint, `CalculateBackoff` is the capped
exponential formula. -/
lemma calculateBackoff_no_hint (dateUntil : String → Option ℚ)
    (cfg : Retry.Config) (attempt : Nat) (resp : Option Retry.Resp)
    (hhint : ∀ r, resp = some r → r.statusCode ≠ 429 ∨ r.retryAfter = "") :
    Retry.CalculateBackoff dateUntil cfg attempt resp =
      min (cfg.initialBackoff * cfg.backoffFactor ^ attempt) cfg.maxBackoff := by
  have hform :
      Retry.CalculateBackoff dateUntil cfg attempt resp =
        (if cfg.initialBackoff * cfg.backoffFactor ^ attempt > cfg.maxBackoff
          then cfg.maxBackoff
          else cfg.initialBackoff * cfg.backoffFactor ^ attempt) := by
    cases resp with
    | none => rfl
    | some r =>
      rcases hhint r rfl with h | h
      · simp [Retry.CalculateBackoff, h]
      · simp [Retry.CalculateBackoff, h]
  rw [hform]
  rcases le_or_lt (cfg.initialBackoff * cfg.backoffFactor ^ attempt)
      cfg.maxBackoff with hle | hlt
  · rw [if_neg (not_lt.mpr hle), min_eq_left hle]
  · rw [if_pos hlt, min_eq_right hlt.le]

/-- C5: if the prior response has HTTP status 429 and a `Retry-After` header
whose value parses as the integer `n`, `CalculateBackoff` returns exactly `n`
seconds, independent of the attempt index and of every `Config` field. -/
theorem C5_retry_after_absolute (dateUntil : String → Option ℚ)
    (cfg : Retry.Config) (attempt : Nat) (resp : Retry.Resp) (n : Int)
    (h429 : resp.statusCode = 429)
    (hparse : Retry.atoi resp.retryAfter = some n) :
    Retry.CalculateBackoff dateUntil cfg attempt (some resp) =
      (n : ℚ) * Retry.second := by
  have hne : resp.retryAfter ≠ "" := by
    intro h
    rw [h, atoi_empty] at hparse
    exact Option.noConfusion hparse
  simp [Retry.CalculateBackoff, h429, hne, hparse]

/-- Witness for C5 at `Retry-After: 5`, attempt 7, an arbitrary config. -/
theorem C5_retry_after_absolute_witness :
    (Retry.Resp.statusCode ⟨429, "5", .malformed⟩ = 429) ∧
    (Retry.atoi (Retry.Resp.retryAfter ⟨429, "5", .malformed⟩) = some 5) ∧
    Retry.CalculateBackoff (fun _ => none) ⟨3, 1, 10, 2⟩ 7
      (some ⟨429, "5", .malformed⟩) = (5 : ℚ) * Retry.second :=
  ⟨rfl, by decide,
    C5_retry_after_absolute (fun _ => none) ⟨3, 1, 10, 2⟩ 7
      ⟨429, "5", .malformed⟩ 5 rfl (by decide)⟩

/-- C6: for a config with positive initial backoff, `maxBackoff ≥
initialBackoff` and factor `≥ 1`, and no rate-limit hint, `CalculateBackoff`
equals `min(initialBackoff · backoffFactor ^ attempt, maxBackoff)`, is
monotonically non-decreasing in the attempt index, and never exceeds
`maxBackoff`. -/
theorem C6_backoff_monotone_capped (dateUntil : String → Option ℚ)
    (cfg : Retry.Config) (resp : Option Retry.Resp)
    (hinit : 0 < cfg.initialBackoff)
    (hmax : cfg.initialBackoff ≤ cfg.maxBackoff)
    (hfac : 1 ≤ cfg.backoffFactor)
    (hhint : ∀ r, resp = some r → r.statusCode ≠ 429 ∨ r.retryAfter = "") :
    ∀ attempt : Nat,
      Retry.CalculateBackoff dateUntil cfg attempt resp =
        min (cfg.initialBackoff * cfg.backoffFactor ^ attempt) cfg.maxBackoff ∧
      Retry.CalculateBackoff dateUntil cfg attempt resp ≤
        Retry.CalculateBackoff dateUntil cfg (attempt + 1) resp ∧
      Retry.CalculateBackoff dateUntil cfg attempt resp ≤ cfg.maxBackoff := by
  intro attempt
  have hval := calculateBackoff_no_hint dateUntil cfg attempt resp hhint
  have hval' := calculateBackoff_no_hint dateUntil cfg (attempt + 1) resp hhint
  refine ⟨hval, ?_, ?_⟩
  · rw [hval, hval']
    refine min_le_min ?_ le_rfl
    exact mul_le_mul_of_nonneg_left
      (pow_le_pow_right₀ hfac (Nat.le_succ attempt)) hinit.le
  · rw [hval]
    exact min_le_right _ _

/-- Witness for C6 at `initialBackoff = 2`, `maxBackoff = 10`, factor 2,
no prior response, attempt 3. -/
theorem C6_backoff_monotone_capped_witness :
    (0 : ℚ) < 2 ∧ (2 : ℚ) ≤ 10 ∧ (1 : ℚ) ≤ 2 ∧
    (Retry.CalculateBackoff (fun _ => none) ⟨0, 2, 10, 2⟩ 3 none =
        min ((2 : ℚ) * 2 ^ 3) 10 ∧
      Retry.CalculateBackoff (fun _ => none) ⟨0, 2, 10, 2⟩ 3 none ≤
        Retry.CalculateBackoff (fun _ => none) ⟨0, 2, 10, 2⟩ 4 none ∧
      Retry.CalculateBackoff (fun _ => none) ⟨0, 2, 10, 2⟩ 3 none ≤ 10) :=
  ⟨by norm_num, by norm_num, by norm_num,
    C6_backoff_monotone_capped (fun _ => none) ⟨0, 2, 10, 2⟩ none
      (by norm_num) (by norm_num) (by norm_num)
      (fun r h => Option.noConfusion h) 3⟩

/-- The folded health state is ready exactly when it started ready and no
shutdown event occurred. -/
lemma foldl_step_ready (tr : List Health.Event) :
    ∀ s : Health.State,
      (tr.foldl Health.step s).ready = true ↔
        (s.ready = true ∧ Health.Event.shutdown ∉ tr) := by
  induction tr with
  | nil => intro s; simp
  | cons e tr ih =>
    intro s
    rw [List.foldl_cons, ih]
    cases e with
    | trigger success attempts errMsg =>
      simp [Health.step, Health.RecordPipelineRun]
    | shutdown =>
      simp [Health.step, Health.SetReady]

/-- C9: `ready` is true from process start until a shutdown event flips it,
no program operation ever sets it back, and once `/ready` has answered 503 it
answers 503 on every later request. -/
theorem C9_ready_latch :
    (∀ tr : List Health.Event,
      (Health.run tr).ready = true ↔ Health.Event.shutdown ∉ tr) ∧
    (∀ tr : List Health.Event,
      Health.Event.shutdown ∈ tr →
        (Health.HandleReady (Health.run tr)).1 = 503 ∧
        (Health.HandleReady (Health.run tr)).2 = "not_ready") ∧
    (∀ tr more : List Health.Event,
      (Health.HandleReady (Health.run tr)).1 = 503 →
        (Health.HandleReady (Health.run (tr ++ more))).1 = 503) := by
  have hready : ∀ tr : List Health.Event,
      (Health.run tr).ready = true ↔ Health.Event.shutdown ∉ tr := by
    intro tr
    rw [Health.run, foldl_step_ready]
    simp [Health.NewState]
  refine ⟨hready, ?_, ?_⟩
  · intro tr htr
    have hnot : ¬ (Health.run tr).ready = true := by
      rw [hready]; simpa using htr
    have hfalse : (Health.run tr).ready = false := by
      simpa using hnot
    constructor <;> simp [Health.HandleReady, hfalse]
  · intro tr more h503
    have hnot : (Health.run tr).ready = false := by
      by_contra hc
      have : (Health.run tr).ready = true := by
        simpa using hc
      simp [Health.HandleReady, this] at h503
    have hmem : Health.Event.shutdown ∈ tr := by
      by_contra hc
      have := (hready tr).mpr hc
      rw [this] at hnot
      exact Bool.noConfusion hnot
    have : ¬ (Health.run (tr ++ more)).ready = true := by
      rw [hready]
      simp [hmem]
    have hf : (Health.run (tr ++ more)).ready = false := by simpa using this
    simp [Health.HandleReady, hf]

/-- Witness for C9 on the trace `[trigger, shutdown]` followed by another
trigger: `/ready` answers 503 and keeps answering 503. -/
theorem C9_ready_latch_witness :
    Health.Event.shutdown ∈
      [Health.Event.trigger true 1 "", Health.Event.shutdown] ∧
    (Health.HandleReady (Health.run
      [Health.Event.trigger true 1 "", Health.Event.shutdown])).1 = 503 ∧
    (Health.HandleReady (Health.run
      ([Health.Event.trigger true 1 "", Health.Event.shutdown] ++
        [Health.Event.trigger false 2 "boom"]))).1 = 503 :=
  ⟨by decide,
    (C9_ready_latch.2.1 _ (by decide)).1,
    C9_ready_latch.2.2 [Health.Event.trigger true 1 "", Health.Event.shutdown]
      [Health.Event.trigger false 2 "boom"]
      (C9_ready_latch.2.1 _ (by decide)).1⟩

/-- `startJob` passes the executor's attempt count through on every path. -/
lemma startJob_attempts (r : Retry.DoResult) :
    (Pipeline.startJob r).attempts = r.attempts := by
  unfold Pipeline.startJob
  cases r.finalError with
  | some e => rfl
  | none =>
    cases r.response with
    | none => rfl
    | some resp =>
      by_cases hread : resp.body = .readErr
      · simp [hread]
      · by_cases hst : resp.statusCode < 200 ∨ resp.statusCode ≥ 300
        · simp [hread, hst]
        · cases hb : resp.body with
          | readErr => exact absurd hb hread
          | malformed => simp [hread, hst, hb]
          | decoded jid =>
            by_cases hjid : jid = "" <;> simp [hread, hst, hb, hjid]

/-- C2: whenever `TriggerAll`'s polling phase obtains a terminal snapshot,
the result's success flag is true iff the snapshot's status is `"completed"`
and its failed-pipeline count is zero; the snapshot is attached. -/
theorem C2_success_iff_completed_no_failures (doRes : Retry.DoResult)
    (pollCfg : Pipeline.PollConfig) (env : Pipeline.PollEnv) (fuel : Nat)
    (st : Pipeline.JobStatus)
    (hstart : (Pipeline.startJob doRes).err = none)
    (hpoll : (Pipeline.pollAux pollCfg env fuel 0 pollCfg.initialInterval).1 =
      .snapshot st) :
    ∃ tr : Pipeline.TriggerResult,
      Pipeline.TriggerAll doRes pollCfg env fuel = some tr ∧
      tr.jobDetails = some st ∧
      (tr.success = true ↔
        (st.status = "completed" ∧ st.pipelinesFailed = 0)) := by
  refine ⟨⟨decide (st.status = "completed" ∧ st.pipelinesFailed = 0),
      (Pipeline.startJob doRes).jobID, (Pipeline.startJob doRes).attempts,
      none, some st⟩, ?_, rfl, by simp⟩
  rcases hs : Pipeline.startJob doRes with ⟨jid, att, err⟩
  rw [hs] at hstart
  simp only at hstart
  subst hstart
  simp [Pipeline.TriggerAll, Pipeline.pollJobCompletion, hs, hpoll]

/-- Witness for C2: a first fetch returning `completed` with two failed
pipelines yields `success = false` with the snapshot attached. -/
theorem C2_success_iff_witness :
    (Pipeline.startJob Fixtures.doResOk).err = none ∧
    (Pipeline.pollAux Fixtures.pcfg Fixtures.envCompleted2 1 0
      Fixtures.pcfg.initialInterval).1 = .snapshot Fixtures.stCompleted2 ∧
    ∃ tr : Pipeline.TriggerResult,
      Pipeline.TriggerAll Fixtures.doResOk Fixtures.pcfg
        Fixtures.envCompleted2 1 = some tr ∧
      tr.jobDetails = some Fixtures.stCompleted2 ∧
      (tr.success = true ↔
        (Fixtures.stCompleted2.status = "completed" ∧
          Fixtures.stCompleted2.pipelinesFailed = 0)) :=
  ⟨by decide, by decide,
    C2_success_iff_completed_no_failures Fixtures.doResOk Fixtures.pcfg
      Fixtures.envCompleted2 1 Fixtures.stCompleted2 (by decide) (by decide)⟩

/-- C4: `startJob` succeeds exactly on a 2xx response with a decodable body
carrying a non-empty `job_id`; on every other outcome it returns an error,
`TriggerAll` returns that error immediately, and the result is the same for
every polling environment and fuel — no status request is ever issued. -/
theorem C4_start_failure_blocks_polling (doRes : Retry.DoResult) :
    ((Pipeline.startJob doRes).err = none ↔
      (doRes.finalError = none ∧
        ∃ resp, doRes.response = some resp ∧
          200 ≤ resp.statusCode ∧ resp.statusCode < 300 ∧
          ∃ jid, resp.body = .decoded jid ∧ jid ≠ "")) ∧
    (∀ e, (Pipeline.startJob doRes).err = some e →
      ∀ pollCfg env fuel,
        Pipeline.TriggerAll doRes pollCfg env fuel =
          some ⟨false, "", doRes.attempts, some e, none⟩) := by
  constructor
  · obtain ⟨oresp, att, fe, ghost⟩ := doRes
    cases fe with
    | some e => simp [Pipeline.startJob]
    | none =>
      cases oresp with
      | none => simp [Pipeline.startJob]
      | some resp =>
        obtain ⟨code, ra, body⟩ := resp
        cases body with
        | readErr => simp [Pipeline.startJob]
        | malformed =>
          by_cases hst : code < 200 ∨ code ≥ 300 <;>
            simp [Pipeline.startJob, hst]
        | decoded jid =>
          by_cases hst : code < 200 ∨ code ≥ 300
          · by_cases hjid : jid = "" <;>
              · simp [Pipeline.startJob, hst, hjid]
                try omega
          · by_cases hjid : jid = ""
            · simp [Pipeline.startJob, hst, hjid]
            · simp [Pipeline.startJob, hst, hjid]
              omega
  · intro e he pollCfg env fuel
    rcases hs : Pipeline.startJob doRes with ⟨jid, att, err⟩
    have hatt : att = doRes.attempts := by
      have := startJob_attempts doRes
      rw [hs] at this
      exact this
    rw [hs] at he
    simp only at he
    subst he
    subst hatt
    simp [Pipeline.TriggerAll, hs]

/-- Witness for C4: a 2xx start response whose decoded body has an empty
`job_id` yields an error, and `TriggerAll` returns it without polling. -/
theorem C4_start_failure_witness :
    (Pipeline.startJob Fixtures.doResNoID).err = some .noJobID ∧
    Pipeline.TriggerAll Fixtures.doResNoID Fixtures.pcfg
        Fixtures.envCompleted2 5 =
      some ⟨false, "", 2, some .noJobID, none⟩ :=
  ⟨by decide,
    (C4_start_failure_blocks_polling Fixtures.doResNoID).2 .noJobID (by decide)
      Fixtures.pcfg Fixtures.envCompleted2 5⟩

/-- C7: a status-fetch failure — transport error, unreadable body, any
non-2xx status including 404, or a malformed body — never terminates the
poll loop: the cycle proceeds through the wait step to the next fetch; and
the loop returns a snapshot only if it was successfully fetched and its
status is `"completed"` or `"failed"`. -/
theorem C7_fetch_failure_transient :
    (Pipeline.fetchJobStatus .netErr = none) ∧
    (∀ (code : Int) (body : Pipeline.StatusBody),
      code = 404 ∨ code < 200 ∨ code ≥ 300 →
      Pipeline.fetchJobStatus (.response code body) = none) ∧
    (∀ code : Int,
      Pipeline.fetchJobStatus (.response code .malformed) = none) ∧
    (∀ code : Int,
      Pipeline.fetchJobStatus (.response code .readErr) = none) ∧
    (∀ (pollCfg : Pipeline.PollConfig) (env : Pipeline.PollEnv)
        (fuel n : Nat) (interval : ℚ),
      env.deadlineExceeded n = false →
      env.cancelledAtCheck n = false →
      Pipeline.fetchJobStatus (env.http n) = none →
      env.cancelledDuringWait n = false →
      Pipeline.pollAux pollCfg env (fuel + 1) n interval =
        Pipeline.pollAux pollCfg env fuel (n + 1)
          (if interval * (3 / 2 : ℚ) > pollCfg.maxInterval
            then pollCfg.maxInterval else interval * (3 / 2 : ℚ))) ∧
    (∀ (pollCfg : Pipeline.PollConfig) (env : Pipeline.PollEnv)
        (fuel n : Nat) (interval : ℚ) (s : Pipeline.JobStatus),
      (Pipeline.pollAux pollCfg env fuel n interval).1 = .snapshot s →
      (s.status = "completed" ∨ s.status = "failed") ∧
      ∃ m, n ≤ m ∧ Pipeline.fetchJobStatus (env.http m) = some s) := by
  refine ⟨rfl, ?_, ?_, ?_, ?_, ?_⟩
  · intro code body h
    by_cases h404 : code = 404
    · cases body <;> simp [Pipeline.fetchJobStatus, h404]
    · have hr : code < 200 ∨ code ≥ 300 := by
        rcases h with h | h
        · exact absurd h h404
        · exact h
      cases body <;> simp [Pipeline.fetchJobStatus, h404, hr]
  · intro code
    by_cases h404 : code = 404 <;>
      by_cases hr : code < 200 ∨ code ≥ 300 <;>
        simp [Pipeline.fetchJobStatus, h404, hr]
  · intro code
    simp [Pipeline.fetchJobStatus]
  · intro pollCfg env fuel n interval hdl hcanc hfetch hwait
    simp [Pipeline.pollAux, hdl, hcanc, hfetch, hwait]
  · intro pollCfg env fuel
    induction fuel with
    | zero =>
      intro n interval s h
      simp [Pipeline.pollAux] at h
    | succ f ih =>
      intro n interval s h
      by_cases hdl : env.deadlineExceeded n
      · simp [Pipeline.pollAux, hdl] at h
      · by_cases hcanc : env.cancelledAtCheck n
        · simp [Pipeline.pollAux, hdl, hcanc] at h
        · cases hf : Pipeline.fetchJobStatus (env.http n) with
          | some s0 =>
            by_cases hterm : s0.status = "completed" ∨ s0.status = "failed"
            · have hs : s0 = s := by
                simpa [Pipeline.pollAux, hdl, hcanc, hf, hterm] using h
              subst hs
              exact ⟨hterm, n, le_rfl, hf⟩
            · by_cases hw : env.cancelledDuringWait n
              · simp [Pipeline.pollAux, hdl, hcanc, hf, hterm, hw] at h
              · simp only [Pipeline.pollAux, hdl, hcanc, hf, hterm, hw,
                  Bool.false_eq_true, if_false, or_self] at h
                simp at h
                obtain ⟨hs, m, hm, hfm⟩ := ih (n + 1) _ s h
                exact ⟨hs, m, by omega, hfm⟩
          | none =>
            by_cases hw : env.cancelledDuringWait n
            · simp [Pipeline.pollAux, hdl, hcanc, hf, hw] at h
            · simp [Pipeline.pollAux, hdl, hcanc, hf, hw] at h
              obtain ⟨hs, m, hm, hfm⟩ := ih (n + 1) _ s h
              exact ⟨hs, m, by omega, hfm⟩

/-- Witness for C7: a 404 fetch is transient (the loop moves to cycle 1), and
the terminal-snapshot conjunct holds at a concrete completed snapshot. -/
theorem C7_fetch_failure_witness :
    Pipeline.fetchJobStatus (.response 404 (.decoded Fixtures.stRunning)) =
      none ∧
    Pipeline.pollAux Fixtures.pcfg Fixtures.envFetchAlwaysFails (3 + 1) 0
        Fixtures.pcfg.initialInterval =
      Pipeline.pollAux Fixtures.pcfg Fixtures.envFetchAlwaysFails 3 (0 + 1)
        (if Fixtures.pcfg.initialInterval * (3 / 2 : ℚ) >
            Fixtures.pcfg.maxInterval
          then Fixtures.pcfg.maxInterval
          else Fixtures.pcfg.initialInterval * (3 / 2 : ℚ)) ∧
    ((Fixtures.stCompleted2.status = "completed" ∨
        Fixtures.stCompleted2.status = "failed") ∧
      ∃ m, 0 ≤ m ∧
        Pipeline.fetchJobStatus (Fixtures.envCompleted2.http m) =
          some Fixtures.stCompleted2) :=
  ⟨C7_fetch_failure_transient.2.1 404 (.decoded Fixtures.stRunning)
      (Or.inl rfl),
    C7_fetch_failure_transient.2.2.2.2.1 Fixtures.pcfg
      Fixtures.envFetchAlwaysFails 3 0 Fixtures.pcfg.initialInterval
      rfl rfl rfl rfl,
    C7_fetch_failure_transient.2.2.2.2.2 Fixtures.pcfg Fixtures.envCompleted2
      1 0 Fixtures.pcfg.initialInterval Fixtures.stCompleted2 (by decide)⟩

/-- C1: for every config, `retry.Do` issues at most `maxRetries + 1`
requests; and for any `maxRetries ≥ 2`, whenever the first three attempts
answer 503, 503, 200 with no cancellation, it terminates on the third
attempt returning the 200 response with `Attempts = 3` and no final
error. -/
theorem C1_do_attempt_bound (cfg : Retry.Config) :
    (∀ env, (Retry.Do cfg env).requestsMade ≤ cfg.maxRetries + 1) ∧
    (2 ≤ cfg.maxRetries →
      ∀ (env : Retry.DoEnv) (r0 r1 r2 : Retry.Resp),
      env.outcome 0 = .response r0 → r0.statusCode = 503 →
      env.outcome 1 = .response r1 → r1.statusCode = 503 →
      env.outcome 2 = .response r2 → r2.statusCode = 200 →
      env.cancelledBefore 1 = false → env.cancelledBefore 2 = false →
      Retry.Do cfg env = ⟨some r2, 3, none, 3⟩) := by
  constructor
  · intro env
    exact Retry.doAux_requestsMade_le cfg env (cfg.maxRetries + 1) 0 none false
  · intro h2 env r0 r1 r2 ho0 hs0 ho1 hs1 ho2 hs2 hc1 hc2
    obtain ⟨m, hm⟩ : ∃ m, cfg.maxRetries = m + 2 :=
      ⟨cfg.maxRetries - 2, by omega⟩
    rw [Retry.Do, hm, Retry.doAux_succ]
    simp only [ho0]
    simp only [Retry.IsRetryable, hs0]
    norm_num
    rw [(show m + 2 = m + 1 + 1 by rfl), Retry.doAux_succ]
    simp only [ho1, hc1]
    simp only [Retry.IsRetryable, hs1]
    norm_num
    rw [Retry.doAux_succ]
    simp only [ho2, hc2]
    simp only [Retry.IsRetryable, hs2]
    norm_num

/-- Witness for C1: the request bound at `maxRetries = 0`, and the concrete
`[503, 503, 200]` scenario at `maxRetries = 2`. -/
theorem C1_do_attempt_bound_witness :
    (Retry.Do ⟨0, 1, 10, 2⟩ Fixtures.envTwo503).requestsMade ≤ 0 + 1 ∧
    2 ≤ Retry.Config.maxRetries ⟨2, 1, 10, 2⟩ ∧
    Retry.Do ⟨2, 1, 10, 2⟩ Fixtures.envTwo503 =
      ⟨some Fixtures.resp200ok, 3, none, 3⟩ :=
  ⟨(C1_do_attempt_bound ⟨0, 1, 10, 2⟩).1 Fixtures.envTwo503,
    by norm_num,
    (C1_do_attempt_bound ⟨2, 1, 10, 2⟩).2 (by norm_num) Fixtures.envTwo503
      Fixtures.resp503 Fixtures.resp503 Fixtures.resp200ok
      (by decide) (by decide) (by decide) (by decide) (by decide) (by decide)
      (by decide) (by decide)⟩

/-- If no cancellation ever fires and every attempt up to the budget yields a
retryable response, the loop runs to exhaustion and falls through with the
last response, `maxRetries + 1` attempts, and a nil final error. -/
lemma doAux_all_retryable (cfg : Retry.Config) (env : Retry.DoEnv)
    (hc : ∀ k, env.cancelledBefore k = false) :
    ∀ (fuel attempt : Nat) (lastResp : Option Retry.Resp),
      attempt + fuel = cfg.maxRetries + 1 → 0 < fuel →
      (∀ k, attempt ≤ k → k ≤ cfg.maxRetries →
        ∃ r, env.outcome k = .response r ∧
          Retry.IsRetryable (some r) false = true) →
      ∀ r, env.outcome cfg.maxRetries = .response r →
        Retry.doAux cfg env fuel attempt lastResp false =
          ⟨some r, cfg.maxRetries + 1, none, fuel⟩ := by
  intro fuel
  induction fuel with
  | zero =>
    intro attempt lastResp hfa hpos
    exact absurd hpos (by omega)
  | succ f ih =>
    intro attempt lastResp hfa hpos hr r hlast
    have hattle : attempt ≤ cfg.maxRetries := by omega
    obtain ⟨r0, hout, hret⟩ := hr attempt le_rfl hattle
    rw [Retry.doAux_succ]
    simp only [hc attempt, Bool.false_eq_true, and_false, if_false, hout,
      hret, Bool.true_eq_false]
    rcases Nat.eq_zero_or_pos f with hf0 | hfpos
    · subst hf0
      have hatt : attempt = cfg.maxRetries := by omega
      have hr0 : r0 = r := by
        rw [hatt] at hout
        rw [hout] at hlast
        injection hlast
      subst hr0
      rw [Retry.doAux_zero]
      simp
    · rw [ih (attempt + 1) (some r0) (by omega) hfpos
        (fun k hk1 hk2 => hr k (by omega) hk2) r hlast]

/-- C10: when every attempt in the budget yields a retryable-status response
and nothing cancels, `retry.Do` exhausts the budget and returns
`FinalError = nil`, `Attempts = maxRetries + 1`, with the last retryable
response attached — exhaustion is signalled only via the attached response. -/
theorem C10_exhaustion_final_error_nil (cfg : Retry.Config)
    (env : Retry.DoEnv)
    (hc : ∀ k, env.cancelledBefore k = false)
    (hr : ∀ k, k ≤ cfg.maxRetries →
      ∃ r, env.outcome k = .response r ∧
        Retry.IsRetryable (some r) false = true) :
    ∃ r, env.outcome cfg.maxRetries = .response r ∧
      Retry.Do cfg env =
        ⟨some r, cfg.maxRetries + 1, none, cfg.maxRetries + 1⟩ := by
  obtain ⟨r, hresp, hret⟩ := hr cfg.maxRetries le_rfl
  refine ⟨r, hresp, ?_⟩
  rw [Retry.Do]
  exact doAux_all_retryable cfg env hc (cfg.maxRetries + 1) 0 none
    (by omega) (by omega) (fun k _ hk2 => hr k hk2) r hresp

/-- Witness for C10 at `maxRetries = 1` with a 503 on every attempt. -/
theorem C10_exhaustion_witness :
    (∀ k, Fixtures.envAll503.cancelledBefore k = false) ∧
    ∃ r, Fixtures.envAll503.outcome (Retry.Config.maxRetries ⟨1, 1, 10, 2⟩) =
        .response r ∧
      Retry.Do ⟨1, 1, 10, 2⟩ Fixtures.envAll503 = ⟨some r, 1 + 1, none, 1 + 1⟩ :=
  ⟨fun _ => rfl,
    C10_exhaustion_final_error_nil ⟨1, 1, 10, 2⟩ Fixtures.envAll503
      (fun _ => rfl)
      (fun k _ => ⟨Fixtures.resp503, rfl, by decide⟩)⟩

/-- C3 counterexample: at a poll checkpoint where the cancellation signal has
already been triggered but the deadline has also passed, the loop terminates
with the timeout error, not the cancellation error — the deadline check runs
first (client.go lines 233-242), so Cancelled does not take priority over
every other terminal outcome. -/
theorem C3_deadline_beats_cancellation_cex :
    Fixtures.envDeadlineAndCancel.cancelledAtCheck 0 = true ∧
    Fixtures.envDeadlineAndCancel.deadlineExceeded 0 = true ∧
    Pipeline.pollJobCompletion Fixtures.pcfg Fixtures.envDeadlineAndCancel 1 =
      some (none, some .pollTimeout) ∧
    Pipeline.pollJobCompletion Fixtures.pcfg Fixtures.envDeadlineAndCancel 1 ≠
      some (none, some .ctxErr) := by
  refine ⟨rfl, rfl, rfl, ?_⟩
  intro h
  simp [Pipeline.pollJobCompletion, Pipeline.pollAux,
    Fixtures.envDeadlineAndCancel] at h

/-- C3 amended: a triggered cancellation signal terminates the executor's
backoff wait, the poll loop's pre-fetch check, and the poll-interval wait
with a cancellation error; but the poll loop's deadline check is evaluated
before its cancellation check, so a checkpoint at which the deadline has
already passed terminates as a timeout even if cancellation is also pending.
Cancelled wins at every checkpoint where the deadline has not passed. -/
theorem C3_cancellation_checkpoints_amended :
    (∀ (cfg : Retry.Config) (env : Retry.DoEnv) (fuel attempt : Nat)
        (lastResp : Option Retry.Resp) (lastErr : Bool),
      0 < attempt → env.cancelledBefore attempt = true →
      Retry.doAux cfg env (fuel + 1) attempt lastResp lastErr =
        ⟨none, attempt, some .ctxErr, 0⟩) ∧
    (∀ (pollCfg : Pipeline.PollConfig) (env : Pipeline.PollEnv)
        (fuel n : Nat) (interval : ℚ),
      env.deadlineExceeded n = true →
      (Pipeline.pollAux pollCfg env (fuel + 1) n interval).1 = .timeout) ∧
    (∀ (pollCfg : Pipeline.PollConfig) (env : Pipeline.PollEnv)
        (fuel n : Nat) (interval : ℚ),
      env.deadlineExceeded n = false → env.cancelledAtCheck n = true →
      (Pipeline.pollAux pollCfg env (fuel + 1) n interval).1 = .cancelled) ∧
    (∀ (pollCfg : Pipeline.PollConfig) (env : Pipeline.PollEnv)
        (fuel n : Nat) (interval : ℚ),
      env.deadlineExceeded n = false → env.cancelledAtCheck n = false →
      Pipeline.fetchJobStatus (env.http n) = none →
      env.cancelledDuringWait n = true →
      (Pipeline.pollAux pollCfg env (fuel + 1) n interval).1 = .cancelled) ∧
    (∀ (pollCfg : Pipeline.PollConfig) (env : Pipeline.PollEnv)
        (fuel n : Nat) (interval : ℚ) (s : Pipeline.JobStatus),
      env.deadlineExceeded n = false → env.cancelledAtCheck n = false →
      Pipeline.fetchJobStatus (env.http n) = some s →
      ¬(s.status = "completed" ∨ s.status = "failed") →
      env.cancelledDuringWait n = true →
      (Pipeline.pollAux pollCfg env (fuel + 1) n interval).1 = .cancelled) := by
  refine ⟨?_, ?_, ?_, ?_, ?_⟩
  · intro cfg env fuel attempt lastResp lastErr hpos hcanc
    rw [Retry.doAux_succ, if_pos ⟨hpos, hcanc⟩]
  · intro pollCfg env fuel n interval hdl
    simp [Pipeline.pollAux, hdl]
  · intro pollCfg env fuel n interval hdl hcanc
    simp [Pipeline.pollAux, hdl, hcanc]
  · intro pollCfg env fuel n interval hdl hcanc hf hw
    simp [Pipeline.pollAux, hdl, hcanc, hf, hw]
  · intro pollCfg env fuel n interval s hdl hcanc hf hterm hw
    simp [Pipeline.pollAux, hdl, hcanc, hf, hterm, hw]

/-- Witness for the amended C3: cancellation wins at the executor's backoff
wait and at a pre-fetch check where the deadline has not passed. -/
theorem C3_cancellation_checkpoints_witness :
    Retry.doAux ⟨2, 1, 10, 2⟩ Fixtures.envCancelledWait (1 + 1) 1
        (some Fixtures.resp503) false =
      ⟨none, 1, some .ctxErr, 0⟩ ∧
    (Pipeline.pollAux Fixtures.pcfg Fixtures.envCancelAtCheck (4 + 1) 0
        Fixtures.pcfg.initialInterval).1 = .cancelled :=
  ⟨C3_cancellation_checkpoints_amended.1 ⟨2, 1, 10, 2⟩
      Fixtures.envCancelledWait 1 1 (some Fixtures.resp503) false
      (by norm_num) rfl,
    C3_cancellation_checkpoints_amended.2.2.1 Fixtures.pcfg
      Fixtures.envCancelAtCheck 4 0 Fixtures.pcfg.initialInterval rfl rfl⟩

/-- C8 counterexample: a run that observes a running snapshot at cycle 0 and
then times out at cycle 1 ends in the non-success terminal state TimedOut
with a snapshot having been obtained during polling (ghost list
`[stRunning]`), yet the returned `TriggerResult` carries `jobDetails = nil` —
`pollJobCompletion` returns a nil snapshot on every error path (client.go
lines 233-242, 267-271). -/
theorem C8_snapshot_dropped_on_timeout_cex :
    Pipeline.pollAux Fixtures.pcfg Fixtures.envRunningThenDeadline 2 0
        Fixtures.pcfg.initialInterval = (.timeout, [Fixtures.stRunning]) ∧
    Pipeline.TriggerAll Fixtures.doResOk Fixtures.pcfg
        Fixtures.envRunningThenDeadline 2 =
      some ⟨false, "j1", 1, some .pollTimeout, none⟩ := by
  exact ⟨by decide, by decide⟩

/-- C8 amended: on a non-success terminal state the raw snapshot is attached
exactly when polling itself terminated by observing a terminal snapshot
(status `"failed"`, or `"completed"` with failures); a run that ends in
TimedOut or Cancelled carries `jobDetails = nil` even if snapshots were
obtained during polling. -/
theorem C8_job_details_amended (doRes : Retry.DoResult)
    (pollCfg : Pipeline.PollConfig) (env : Pipeline.PollEnv) (fuel : Nat)
    (hstart : (Pipeline.startJob doRes).err = none) :
    (∀ s, (Pipeline.pollAux pollCfg env fuel 0 pollCfg.initialInterval).1 =
        .snapshot s →
      ∃ tr, Pipeline.TriggerAll doRes pollCfg env fuel = some tr ∧
        tr.jobDetails = some s) ∧
    ((Pipeline.pollAux pollCfg env fuel 0 pollCfg.initialInterval).1 =
        .timeout →
      ∃ tr, Pipeline.TriggerAll doRes pollCfg env fuel = some tr ∧
        tr.jobDetails = none ∧ tr.error = some .pollTimeout ∧
        tr.success = false) ∧
    ((Pipeline.pollAux pollCfg env fuel 0 pollCfg.initialInterval).1 =
        .cancelled →
      ∃ tr, Pipeline.TriggerAll doRes pollCfg env fuel = some tr ∧
        tr.jobDetails = none ∧ tr.error = some .ctxErr ∧
        tr.success = false) := by
  rcases hs : Pipeline.startJob doRes with ⟨jid, att, err⟩
  rw [hs] at hstart
  simp only at hstart
  subst hstart
  refine ⟨?_, ?_, ?_⟩
  · intro s hpoll
    exact ⟨⟨decide (s.status = "completed" ∧ s.pipelinesFailed = 0), jid, att,
        none, some s⟩,
      by simp [Pipeline.TriggerAll, Pipeline.pollJobCompletion, hs, hpoll],
      rfl⟩
  · intro hpoll
    exact ⟨⟨false, jid, att, some .pollTimeout, none⟩,
      by simp [Pipeline.TriggerAll, Pipeline.pollJobCompletion, hs, hpoll],
      rfl, rfl, rfl⟩
  · intro hpoll
    exact ⟨⟨false, jid, att, some .ctxErr, none⟩,
      by simp [Pipeline.TriggerAll, Pipeline.pollJobCompletion, hs, hpoll],
      rfl, rfl, rfl⟩

/-- Witness for the amended C8: the timed-out run of the counterexample
environment indeed carries no snapshot. -/
theorem C8_job_details_witness :
    (Pipeline.startJob Fixtures.doResOk).err = none ∧
    ∃ tr, Pipeline.TriggerAll Fixtures.doResOk Fixtures.pcfg
        Fixtures.envRunningThenDeadline 2 = some tr ∧
      tr.jobDetails = none ∧ tr.error = some .pollTimeout ∧
      tr.success = false :=
  ⟨by decide,
    (C8_job_details_amended Fixtures.doResOk Fixtures.pcfg
      Fixtures.envRunningThenDeadline 2 (by decide)).2.1 (by decide)⟩
